import Mathlib

/-!
Shallow embedding of the double-buffered simulation pipeline in
`src/Thread/Thread.cpp` (KiLeeHyunJin/Multi_Thread).

Positions and velocities (`double` in the source) are modelled as rationals;
all arithmetic performed by the embedded code (addition, comparison against
the integer bounds 0, 79, 24, negation) is exact on the inputs the claims
exercise, so no rounding behaviour is lost.  Entity ids (`uint32_t`) are
modelled as `Nat`.  Component tables (`std::vector` of length
`MAX_ENTITIES`) are modelled as total functions from ids; the systems only
ever touch indices `< MAX_ENTITIES`, mirroring the source loops.
-/

/-- `using Entity = uint32_t; const Entity MAX_ENTITIES = 1000;` -/
def MAX_ENTITIES : Nat := 1000

/-- `struct TransformComponent { double x = 0.0, y = 0.0; };` -/
structure TransformComponent where
  x : ℚ
  y : ℚ
deriving DecidableEq

/-- `struct PhysicsComponent { double vx = 0.0, vy = 0.0; };` -/
structure PhysicsComponent where
  vx : ℚ
  vy : ℚ
deriving DecidableEq

/-- `struct RenderComponent { char symbol = '\0'; };` -/
structure RenderComponent where
  symbol : Char
deriving DecidableEq

/-- `struct HealthComponent { int health = 100; };` -/
structure HealthComponent where
  health : Int
deriving DecidableEq

/-- `struct CollisionEvent { Entity a; Entity b; };` -/
structure CollisionEvent where
  a : Nat
  b : Nat
deriving DecidableEq

/-- `using GameEvent = std::variant<CollisionEvent>;` -/
inductive GameEvent where
  | collision (ev : CollisionEvent)
deriving DecidableEq

/-- The `Scene` class: the double-buffered transform tables (indexed by
buffer number then entity id), the single-copy component tables, the
active-flag table, and the atomic front-buffer index. -/
structure Scene where
  frontBufferIndex : Nat
  transforms : Nat → Nat → TransformComponent
  physics : Nat → PhysicsComponent
  renders : Nat → RenderComponent
  healths : Nat → HealthComponent
  active : Nat → Bool

/-- `Scene::SwapTransformBuffers`: `m_frontBufferIndex = 1 - m_frontBufferIndex`. -/
def swapTransformBuffers (s : Scene) : Scene :=
  { s with frontBufferIndex := 1 - s.frontBufferIndex }

/-- The scan loop of `Scene::CreateEntity`: starting at id `i` with `fuel`
ids left to examine, return the first id whose active flag is clear. -/
def firstInactiveFrom (active : Nat → Bool) : Nat → Nat → Option Nat
  | _, 0 => none
  | i, fuel + 1 => if active i = true then firstInactiveFrom active (i + 1) fuel else some i

/-- `Scene::CreateEntity`: scan ids `0 .. MAX_ENTITIES-1` for the first
inactive slot; mark it active and return it, or return `MAX_ENTITIES`
when every slot is active. -/
def createEntity (s : Scene) : Scene × Nat :=
  match firstInactiveFrom s.active 0 MAX_ENTITIES with
  | some i => ({ s with active := fun j => if j = i then true else s.active j }, i)
  | none => (s, MAX_ENTITIES)

/-- `if (transforms_back[i].x < 0) { transforms_back[i].x = 0; physics[i].vx *= -1;
events.Push(CollisionEvent{ i, MAX_ENTITIES }); }` — the lower-bound correction
of one axis.  Returns (position, velocity, pushed events). -/
def clampLow (i : Nat) (lo pos v : ℚ) : ℚ × ℚ × List CollisionEvent :=
  if pos < lo then (lo, -v, [⟨i, MAX_ENTITIES⟩]) else (pos, v, [])

/-- `if (transforms_back[i].x > 79) { transforms_back[i].x = 79; physics[i].vx *= -1;
events.Push(CollisionEvent{ i, MAX_ENTITIES }); }` — the upper-bound correction
of one axis. -/
def clampHigh (i : Nat) (hi pos v : ℚ) : ℚ × ℚ × List CollisionEvent :=
  if pos > hi then (hi, -v, [⟨i, MAX_ENTITIES⟩]) else (pos, v, [])

/-- Both boundary corrections of one axis, in source order (lower bound
first, then the upper bound applied to the already-corrected value). -/
def clampAxis (i : Nat) (lo hi pos v : ℚ) : ℚ × ℚ × List CollisionEvent :=
  let r1 := clampLow i lo pos v
  let r2 := clampHigh i hi r1.1 r1.2.1
  (r2.1, r2.2.1, r1.2.2 ++ r2.2.2)

/-- The loop body of `PhysicsSystem::UpdateParallel` for one active entity:
copy the front-buffer transform, and when the velocity is nonzero integrate
it and apply the boundary corrections (x against `[0, 79]`, y against
`[0, 24]`).  Returns the back-buffer transform, the updated physics
component and the pushed events (x-axis events before y-axis events,
as pushed by the source). -/
def stepEntity (i : Nat) (t : TransformComponent) (p : PhysicsComponent) :
    TransformComponent × PhysicsComponent × List CollisionEvent :=
  if p.vx ≠ 0 ∨ p.vy ≠ 0 then
    let rx := clampAxis i 0 79 (t.x + p.vx) p.vx
    let ry := clampAxis i 0 24 (t.y + p.vy) p.vy
    (⟨rx.1, ry.1⟩, ⟨rx.2.1, ry.2.1⟩, rx.2.2 ++ ry.2.2)
  else (t, p, [])

/-- `stepEntity` applied to entity `i` of scene `s`, reading the
front-buffer transform and the physics table as the source loop does. -/
def stepTransform (s : Scene) (i : Nat) :
    TransformComponent × PhysicsComponent × List CollisionEvent :=
  stepEntity i (s.transforms s.frontBufferIndex i) (s.physics i)

/-- The events pushed by one `PhysicsSystem::UpdateParallel` call: the loop
visits ids `0 .. MAX_ENTITIES-1` in order, skips inactive entities, and
pushes each active entity's events in axis order. -/
def updateEvents (s : Scene) : List CollisionEvent :=
  (List.range MAX_ENTITIES).flatMap fun i =>
    if s.active i = true then (stepTransform s i).2.2 else []

/-- `PhysicsSystem::UpdateParallel`: read the front index, write every
active entity's slot of the back buffer (copy + integrate + boundary
correction), update the physics table, push the collision events, and
finally store the back index as the new front index. -/
def updateParallel (s : Scene) : Scene × List CollisionEvent :=
  let back := 1 - s.frontBufferIndex
  ({ s with
      frontBufferIndex := back
      transforms := fun b i =>
        if b = back ∧ i < MAX_ENTITIES ∧ s.active i = true then (stepTransform s i).1
        else s.transforms b i
      physics := fun i =>
        if i < MAX_ENTITIES ∧ s.active i = true then (stepTransform s i).2.1
        else s.physics i },
    updateEvents s)

/-- The legacy `PhysicsSystem::Update` (marked "legacy (unused)" in the
source): copy every active entity's front transform into the back buffer,
integrate nonzero velocities with no boundary handling and no events, then
call `SwapTransformBuffers`. -/
def legacyUpdate (s : Scene) : Scene :=
  let back := 1 - s.frontBufferIndex
  swapTransformBuffers
    { s with
        transforms := fun b i =>
          if b = back ∧ i < MAX_ENTITIES ∧ s.active i = true then
            let t := s.transforms s.frontBufferIndex i
            let p := s.physics i
            if p.vx ≠ 0 ∨ p.vy ≠ 0 then ⟨t.x + p.vx, t.y + p.vy⟩ else t
          else s.transforms b i }

/-- One loop iteration of `CPhysicsThread::Run` in `Thread.cpp` after the
request wait: `system.Update(scene, events)` (which itself ends in
`SwapTransformBuffers`) followed by a second `scene.SwapTransformBuffers()`. -/
def physicsThreadRunStep (s : Scene) : Scene :=
  swapTransformBuffers (legacyUpdate s)

/-- `struct RenderPacket { char symbol; int x, y; };` -/
structure RenderPacket where
  symbol : Char
  x : Int
  y : Int
deriving DecidableEq

/-- The C `(int)` cast on a `double`: truncation toward zero. -/
def truncD (q : ℚ) : Int := if q < 0 then ⌈q⌉ else ⌊q⌋

/-- `RenderSystem::CollectParallel`: load the front index, and for each
active entity whose symbol differs from the space character (`' '`, code
point 32 — note: not the null character), append a packet with the
truncated front-buffer coordinates, in increasing id order. -/
def collectParallel (s : Scene) : List RenderPacket :=
  (List.range MAX_ENTITIES).filterMap fun i =>
    if s.active i = true ∧ (s.renders i).symbol ≠ Char.ofNat 32 then
      some ⟨(s.renders i).symbol,
            truncD (s.transforms s.frontBufferIndex i).x,
            truncD (s.transforms s.frontBufferIndex i).y⟩
    else none

/-- `EventQueue::Push`: append at the tail. -/
def pushQueue (q : List GameEvent) (e : GameEvent) : List GameEvent := q ++ [e]

/-- `EventQueue::TryPop`: return `none` and leave the queue unchanged when
empty, otherwise remove and return the head. -/
def tryPopQueue (q : List GameEvent) : Option GameEvent × List GameEvent :=
  match q with
  | [] => (none, [])
  | e :: rest => (some e, rest)

/-- A client operation on the event queue: a push or a non-blocking pop. -/
inductive QueueOp where
  | push (e : GameEvent)
  | tryPop

/-- The events pushed by a sequence of queue operations, in order. -/
def pushedOf : List QueueOp → List GameEvent
  | [] => []
  | QueueOp.push e :: rest => e :: pushedOf rest
  | QueueOp.tryPop :: rest => pushedOf rest

/-- Run a sequence of queue operations against a queue state; return the
final queue and the successfully popped events in pop order. -/
def runOps : List QueueOp → List GameEvent → List GameEvent × List GameEvent
  | [], q => (q, [])
  | QueueOp.push e :: rest, q => runOps rest (pushQueue q e)
  | QueueOp.tryPop :: rest, q =>
    match tryPopQueue q with
    | (none, q1) => runOps rest q1
    | (some e, q1) =>
      let r := runOps rest q1
      (r.1, e :: r.2)

/-- Whether a `GameEvent` is a collision against the boundary sentinel. -/
def isBoundaryEvent : GameEvent → Bool
  | GameEvent.collision ev => decide (ev.b = MAX_ENTITIES)

/-- The drain loop of `DamageSystem::DrainAndApply`: pop until the queue is
empty; for each collision event whose `b` is `MAX_ENTITIES` and whose
entity has positive health, clamp-subtract the penalty 10 and log the hit.
Returns the final health table, the final queue and the logged entity ids
(the `std::cout` reports) in order. -/
def drainAndApply : (Nat → HealthComponent) → List GameEvent →
    (Nat → HealthComponent) × List GameEvent × List Nat
  | healths, [] => (healths, [], [])
  | healths, GameEvent.collision ev :: rest =>
    if ev.b = MAX_ENTITIES then
      if (healths ev.a).health > 0 then
        let healths1 := fun j =>
          if j = ev.a then ⟨max 0 ((healths ev.a).health - 10)⟩ else healths j
        let r := drainAndApply healths1 rest
        (r.1, r.2.1, ev.a :: r.2.2)
      else drainAndApply healths rest
    else drainAndApply healths rest

/-- `DamageSystem::DrainAndApply` at the scene level: the method only
accesses the scene through `GetHealths()`, so its effect on the scene is
exactly the health-table update of the drain loop. -/
def drainAndApplyScene (s : Scene) (q : List GameEvent) :
    Scene × List GameEvent × List Nat :=
  let r := drainAndApply s.healths q
  ({ s with healths := r.1 }, r.2.1, r.2.2)

set_option maxRecDepth 10000

/-! ### Helper lemmas about the physics step -/

lemma clampAxis_eq (i : Nat) (lo hi pos v : ℚ) (h : lo ≤ hi) :
    clampAxis i lo hi pos v =
      (if pos < lo then lo else if pos > hi then hi else pos,
       if pos < lo ∨ pos > hi then -v else v,
       if pos < lo ∨ pos > hi then [⟨i, MAX_ENTITIES⟩] else []) := by
  by_cases h1 : pos < lo
  · have h2 : ¬ lo > hi := not_lt.mpr h
    simp [clampAxis, clampLow, clampHigh, h1, h2]
  · by_cases h2 : pos > hi
    · simp [clampAxis, clampLow, clampHigh, h1, h2]
    · simp [clampAxis, clampLow, clampHigh, h1, h2]

lemma stepEntity_eq (i : Nat) (t : TransformComponent) (p : PhysicsComponent)
    (hv : p.vx ≠ 0 ∨ p.vy ≠ 0) :
    stepEntity i t p =
      (⟨if t.x + p.vx < 0 then 0 else if t.x + p.vx > 79 then 79 else t.x + p.vx,
        if t.y + p.vy < 0 then 0 else if t.y + p.vy > 24 then 24 else t.y + p.vy⟩,
       ⟨if t.x + p.vx < 0 ∨ t.x + p.vx > 79 then -p.vx else p.vx,
        if t.y + p.vy < 0 ∨ t.y + p.vy > 24 then -p.vy else p.vy⟩,
       (if t.x + p.vx < 0 ∨ t.x + p.vx > 79 then [⟨i, MAX_ENTITIES⟩] else []) ++
       (if t.y + p.vy < 0 ∨ t.y + p.vy > 24 then [⟨i, MAX_ENTITIES⟩] else [])) := by
  unfold stepEntity
  rw [if_pos hv, clampAxis_eq i 0 79 _ _ (by norm_num),
    clampAxis_eq i 0 24 _ _ (by norm_num)]

lemma stepEntity_zero (i : Nat) (t : TransformComponent) (p : PhysicsComponent)
    (hv : p = ⟨0, 0⟩) : stepEntity i t p = (t, p, []) := by
  subst hv
  unfold stepEntity
  rw [if_neg]
  simp

lemma mem_stepEntity_events {e : CollisionEvent} (i : Nat)
    (t : TransformComponent) (p : PhysicsComponent)
    (he : e ∈ (stepEntity i t p).2.2) :
    e = ⟨i, MAX_ENTITIES⟩ ∧ (p.vx ≠ 0 ∨ p.vy ≠ 0) := by
  by_cases hv : p.vx ≠ 0 ∨ p.vy ≠ 0
  · rw [stepEntity_eq i t p hv] at he
    refine ⟨?_, hv⟩
    rcases List.mem_append.mp he with h | h <;> split at h <;> simp_all
  · unfold stepEntity at he
    rw [if_neg hv] at he
    simp at he

lemma stepEntity_events_len (i : Nat) (t : TransformComponent)
    (p : PhysicsComponent) : (stepEntity i t p).2.2.length ≤ 2 := by
  by_cases hv : p.vx ≠ 0 ∨ p.vy ≠ 0
  · rw [stepEntity_eq i t p hv]
    simp only [List.length_append]
    have h1 : (if t.x + p.vx < 0 ∨ t.x + p.vx > 79
        then [(⟨i, MAX_ENTITIES⟩ : CollisionEvent)] else []).length ≤ 1 := by
      split <;> simp
    have h2 : (if t.y + p.vy < 0 ∨ t.y + p.vy > 24
        then [(⟨i, MAX_ENTITIES⟩ : CollisionEvent)] else []).length ≤ 1 := by
      split <;> simp
    omega
  · unfold stepEntity
    rw [if_neg hv]
    simp

lemma mem_updateEvents {s : Scene} {e : CollisionEvent}
    (he : e ∈ updateEvents s) :
    e.b = MAX_ENTITIES ∧ e.a < MAX_ENTITIES ∧ s.active e.a = true ∧
      ((s.physics e.a).vx ≠ 0 ∨ (s.physics e.a).vy ≠ 0) := by
  unfold updateEvents at he
  rw [List.mem_flatMap] at he
  obtain ⟨j, hj, hej⟩ := he
  rw [List.mem_range] at hj
  by_cases hact : s.active j = true
  · rw [if_pos hact] at hej
    obtain ⟨rfl, hv⟩ := mem_stepEntity_events j _ _ hej
    exact ⟨rfl, hj, hact, hv⟩
  · rw [if_neg hact] at hej
    simp at hej

lemma flatMap_eq_of_single {β : Type} (g : Nat → List β) (i : Nat)
    (h0 : ∀ j, j ≠ i → g j = []) (n : Nat) :
    (List.range n).flatMap g = if i < n then g i else [] := by
  induction n with
  | zero => simp
  | succ n ih =>
    rw [List.range_succ, List.flatMap_append, ih]
    by_cases hin : i < n
    · have : n ≠ i := by omega
      simp [hin, h0 n this, Nat.lt_succ_of_lt hin]
    · by_cases hie : i = n
      · subst hie
        simp [hin]
      · have h1 : ¬ i < n + 1 := by omega
        simp [hin, h1, h0 n (by omega)]

lemma updateEvents_filter (s : Scene) (i : Nat) :
    (updateEvents s).filter (fun e => decide (e.a = i)) =
      if i < MAX_ENTITIES ∧ s.active i = true then (stepTransform s i).2.2 else [] := by
  unfold updateEvents
  rw [List.filter_flatMap]
  rw [flatMap_eq_of_single _ i]
  · by_cases hi : i < MAX_ENTITIES
    · by_cases hact : s.active i = true
      · rw [if_pos hi, if_pos hact, if_pos ⟨hi, hact⟩]
        rw [List.filter_eq_self]
        intro e hee
        obtain ⟨rfl, -⟩ := mem_stepEntity_events i _ _ hee
        simp
      · rw [if_pos hi, if_neg hact, if_neg (by tauto)]
        simp
    · rw [if_neg hi, if_neg (by tauto)]
  · intro j hji
    by_cases hact : s.active j = true
    · rw [if_pos hact, List.filter_eq_nil_iff]
      intro e hee
      obtain ⟨rfl, -⟩ := mem_stepEntity_events j _ _ hee
      simp [hji]
    · rw [if_neg hact]
      simp

/-! ### Claim theorems -/

/-- C1: for every active entity with nonzero velocity, one parallel physics
step integrates the front-buffer position by adding the velocity; a
coordinate landing outside `[0, 79]` (x) or `[0, 24]` (y) is clamped to the
nearest bound, the corresponding velocity component is negated, and exactly
one Collision event `⟨entity, MAX_ENTITIES⟩` is pushed per violated axis. -/
theorem physics_step_boundary_clamp (s : Scene) (i : Nat)
    (hi : i < MAX_ENTITIES) (ha : s.active i = true)
    (hv : (s.physics i).vx ≠ 0 ∨ (s.physics i).vy ≠ 0) :
    ((updateParallel s).1.transforms (1 - s.frontBufferIndex) i).x
        = (if (s.transforms s.frontBufferIndex i).x + (s.physics i).vx < 0 then 0
           else if (s.transforms s.frontBufferIndex i).x + (s.physics i).vx > 79 then 79
           else (s.transforms s.frontBufferIndex i).x + (s.physics i).vx)
    ∧ ((updateParallel s).1.transforms (1 - s.frontBufferIndex) i).y
        = (if (s.transforms s.frontBufferIndex i).y + (s.physics i).vy < 0 then 0
           else if (s.transforms s.frontBufferIndex i).y + (s.physics i).vy > 24 then 24
           else (s.transforms s.frontBufferIndex i).y + (s.physics i).vy)
    ∧ ((updateParallel s).1.physics i).vx
        = (if (s.transforms s.frontBufferIndex i).x + (s.physics i).vx < 0
             ∨ (s.transforms s.frontBufferIndex i).x + (s.physics i).vx > 79
           then -(s.physics i).vx else (s.physics i).vx)
    ∧ ((updateParallel s).1.physics i).vy
        = (if (s.transforms s.frontBufferIndex i).y + (s.physics i).vy < 0
             ∨ (s.transforms s.frontBufferIndex i).y + (s.physics i).vy > 24
           then -(s.physics i).vy else (s.physics i).vy)
    ∧ (updateParallel s).2.filter (fun e => decide (e.a = i))
        = ((if (s.transforms s.frontBufferIndex i).x + (s.physics i).vx < 0
              ∨ (s.transforms s.frontBufferIndex i).x + (s.physics i).vx > 79
            then [⟨i, MAX_ENTITIES⟩] else [])
           ++ (if (s.transforms s.frontBufferIndex i).y + (s.physics i).vy < 0
                 ∨ (s.transforms s.frontBufferIndex i).y + (s.physics i).vy > 24
               then [⟨i, MAX_ENTITIES⟩] else [])) := by
  have htr : (updateParallel s).1.transforms (1 - s.frontBufferIndex) i
      = (stepTransform s i).1 := by
    simp [updateParallel, hi, ha]
  have hph : (updateParallel s).1.physics i = (stepTransform s i).2.1 := by
    simp [updateParallel, hi, ha]
  have hev : (updateParallel s).2.filter (fun e => decide (e.a = i))
      = (stepTransform s i).2.2 := by
    have h := updateEvents_filter s i
    rw [if_pos ⟨hi, ha⟩] at h
    exact h
  rw [htr, hph, hev]
  unfold stepTransform
  rw [stepEntity_eq i _ _ hv]
  exact ⟨rfl, rfl, rfl, rfl, rfl⟩

/-- Concrete scene for the C1 witness: one active entity at x = 78 with
vx = 5 (the scenario named by the spec). -/
def sceneC1 : Scene where
  frontBufferIndex := 0
  transforms := fun _ _ => ⟨78, 10⟩
  physics := fun i => if i = 0 then ⟨5, 0⟩ else ⟨0, 0⟩
  renders := fun _ => ⟨Char.ofNat 64⟩
  healths := fun _ => ⟨100⟩
  active := fun i => decide (i = 0)

/-- C1 witness: the entity at x = 78 with vx = 5 ends the step at x = 79
with vx = -5 and exactly one boundary event pushed for it. -/
theorem physics_step_boundary_clamp_witness :
    sceneC1.active 0 = true ∧ (sceneC1.physics 0).vx ≠ 0 ∧
    ((updateParallel sceneC1).1.transforms 1 0).x = 79 ∧
    ((updateParallel sceneC1).1.physics 0).vx = -5 ∧
    (updateParallel sceneC1).2.filter (fun e => decide (e.a = 0))
      = [⟨0, MAX_ENTITIES⟩] := by
  have h := physics_step_boundary_clamp sceneC1 0 (by decide) (by decide)
    (Or.inl (by norm_num [sceneC1]))
  refine ⟨by decide, by norm_num [sceneC1], ?_, ?_, ?_⟩
  · have h1 := h.1
    rw [if_neg (by norm_num [sceneC1]), if_pos (by norm_num [sceneC1])] at h1
    exact h1
  · have h1 := h.2.2.1
    rw [if_pos (Or.inr (by norm_num [sceneC1]))] at h1
    simpa [sceneC1] using h1
  · have h1 := h.2.2.2.2
    rw [if_pos (Or.inr (by norm_num [sceneC1])), if_neg (by norm_num [sceneC1])] at h1
    simpa using h1

/-- C2: the parallel physics step does flip the front index exactly once
(second conjunct), but one iteration of `CPhysicsThread::Run` in
`Thread.cpp` — the legacy `PhysicsSystem::Update`, which already ends in
`SwapTransformBuffers`, followed by `Run`'s own second
`SwapTransformBuffers` — flips it twice, leaving the front index exactly
where it started (first conjunct), contradicting the claimed
one-flip-per-completed-step invariant. -/
theorem physics_thread_run_double_flip :
    (∀ s : Scene, s.frontBufferIndex ≤ 1 →
        (physicsThreadRunStep s).frontBufferIndex = s.frontBufferIndex)
    ∧ (∀ s : Scene,
        (updateParallel s).1.frontBufferIndex = 1 - s.frontBufferIndex) := by
  constructor
  · intro s h
    simp only [physicsThreadRunStep, legacyUpdate, swapTransformBuffers]
    omega
  · intro s
    rfl

/-- Concrete scene for the C2 witness. -/
def sceneC2 : Scene where
  frontBufferIndex := 0
  transforms := fun _ _ => ⟨0, 0⟩
  physics := fun _ => ⟨0, 0⟩
  renders := fun _ => ⟨Char.ofNat 0⟩
  healths := fun _ => ⟨100⟩
  active := fun _ => false

/-- C2 witness: with the front index at 0, one `CPhysicsThread::Run`
iteration of `Thread.cpp` leaves it at 0 (two flips), while one
`UpdateParallel` step moves it to 1. -/
theorem physics_thread_run_double_flip_witness :
    sceneC2.frontBufferIndex ≤ 1 ∧
    (physicsThreadRunStep sceneC2).frontBufferIndex = sceneC2.frontBufferIndex ∧
    (updateParallel sceneC2).1.frontBufferIndex = 1 - sceneC2.frontBufferIndex :=
  ⟨by decide, physics_thread_run_double_flip.1 sceneC2 (by decide),
    physics_thread_run_double_flip.2 sceneC2⟩

/-! ### Helper lemmas about the damage drain -/

lemma drainAndApply_queue (healths : Nat → HealthComponent)
    (q : List GameEvent) : (drainAndApply healths q).2.1 = [] := by
  induction q generalizing healths with
  | nil => rfl
  | cons e rest ih =>
    obtain ⟨ev⟩ := e
    simp only [drainAndApply]
    split
    · split
      · simpa using ih _
      · exact ih _
    · exact ih _

lemma drainAndApply_nonneg (q : List GameEvent) :
    ∀ healths : Nat → HealthComponent, (∀ j, 0 ≤ (healths j).health) →
      ∀ j, 0 ≤ ((drainAndApply healths q).1 j).health := by
  induction q with
  | nil => intro h hh j; exact hh j
  | cons e rest ih =>
    intro h hh j
    obtain ⟨ev⟩ := e
    simp only [drainAndApply]
    split
    · split
      · refine ih _ ?_ j
        intro k
        by_cases hk : k = ev.a
        · simp [hk]
        · simpa [hk] using hh k
      · exact ih h hh j
    · exact ih h hh j

lemma drainAndApply_filter (q : List GameEvent) :
    ∀ healths : Nat → HealthComponent,
      drainAndApply healths q = drainAndApply healths (q.filter isBoundaryEvent) := by
  induction q with
  | nil => intro h; rfl
  | cons e rest ih =>
    intro h
    obtain ⟨ev⟩ := e
    by_cases hb : ev.b = MAX_ENTITIES
    · have hkeep : isBoundaryEvent (GameEvent.collision ev) = true := by
        simp [isBoundaryEvent, hb]
      rw [List.filter_cons_of_pos hkeep]
      simp only [drainAndApply, if_pos hb]
      split
      · rw [ih]
      · rw [ih]
    · have hdrop : ¬ isBoundaryEvent (GameEvent.collision ev) = true := by
        simp [isBoundaryEvent, hb]
      rw [List.filter_cons_of_neg hdrop]
      simp only [drainAndApply, if_neg hb]
      exact ih h

/-- C3 counterexample: entity 0 starts at health 5; draining two boundary
hits reports only the first (health 5 → 0), and draining a boundary hit
for an entity already at health 0 produces no report at all — the
`std::cout` report sits inside the `health > 0` guard, so the claim's
"still reports a hit" is false on the code. -/
theorem damage_zero_health_no_report :
    (drainAndApply (fun _ => ⟨5⟩)
        [GameEvent.collision ⟨0, MAX_ENTITIES⟩,
         GameEvent.collision ⟨0, MAX_ENTITIES⟩]).2.2 = [0]
    ∧ (drainAndApply (fun _ => ⟨0⟩)
        [GameEvent.collision ⟨0, MAX_ENTITIES⟩]).2.2 = [] := by
  constructor <;> decide

/-- C3 (amended): draining a boundary event for an entity with positive
health clamp-subtracts the penalty 10 (floored at zero) and reports the
hit; a boundary event for an entity at health 0 is ignored entirely — no
decrement and no report; and no drain ever makes a health negative. -/
theorem damage_floor_amended (healths : Nat → HealthComponent) (a : Nat) :
    ((healths a).health > 0 →
        (drainAndApply healths [GameEvent.collision ⟨a, MAX_ENTITIES⟩]).1 a
            = ⟨max 0 ((healths a).health - 10)⟩
        ∧ (drainAndApply healths [GameEvent.collision ⟨a, MAX_ENTITIES⟩]).2.2 = [a])
    ∧ ((healths a).health = 0 →
        drainAndApply healths [GameEvent.collision ⟨a, MAX_ENTITIES⟩]
          = (healths, [], []))
    ∧ (∀ q : List GameEvent, (∀ j, 0 ≤ (healths j).health) →
        ∀ j, 0 ≤ ((drainAndApply healths q).1 j).health) := by
  refine ⟨?_, ?_, fun q hq j => drainAndApply_nonneg q healths hq j⟩
  · intro hpos
    simp only [drainAndApply, if_pos rfl, if_pos hpos]
    constructor
    · simp [drainAndApply]
    · rfl
  · intro hz
    have hneg : ¬ (healths a).health > 0 := by omega
    simp only [drainAndApply, if_pos rfl, if_neg hneg]
    simp

/-- C3 witness: an entity with health 5 taking one boundary hit ends at
health 0 (not negative) and the hit is reported. -/
theorem damage_floor_amended_witness :
    ((fun _ => (⟨5⟩ : HealthComponent)) 0).health > 0
    ∧ (drainAndApply (fun _ => ⟨5⟩) [GameEvent.collision ⟨0, MAX_ENTITIES⟩]).1 0 = ⟨0⟩
    ∧ (drainAndApply (fun _ => ⟨5⟩) [GameEvent.collision ⟨0, MAX_ENTITIES⟩]).2.2 = [0] := by
  have h := (damage_floor_amended (fun _ => ⟨5⟩) 0).1 (by decide)
  refine ⟨by decide, ?_, h.2⟩
  rw [h.1]
  decide

/-- C9: the damage drain touches the scene only through the health table —
position buffers, physics, glyphs, active flags and the buffer index are
unchanged; the queue is empty after every drain; and collision events whose
second id is not the boundary sentinel are ignored: dropping them from the
queue changes nothing about the drain's result. -/
theorem drain_touches_only_health (s : Scene) (q : List GameEvent) :
    ((drainAndApplyScene s q).1.transforms = s.transforms
      ∧ (drainAndApplyScene s q).1.physics = s.physics
      ∧ (drainAndApplyScene s q).1.renders = s.renders
      ∧ (drainAndApplyScene s q).1.active = s.active
      ∧ (drainAndApplyScene s q).1.frontBufferIndex = s.frontBufferIndex)
    ∧ (drainAndApplyScene s q).2.1 = []
    ∧ (∀ healths : Nat → HealthComponent,
        drainAndApply healths q = drainAndApply healths (q.filter isBoundaryEvent)) :=
  ⟨⟨rfl, rfl, rfl, rfl, rfl⟩, drainAndApply_queue s.healths q,
    fun healths => drainAndApply_filter q healths⟩

/-- C4: one parallel physics step writes every active entity's slot of the
back buffer (the per-entity step value computed from the current front
buffer); for an active entity with zero velocity the written slot is an
exact copy of the front-buffer value and the step pushes no event for that
entity — so no active slot is stale or uninitialized at the swap. -/
theorem physics_step_writes_all_active (s : Scene) (i : Nat)
    (hi : i < MAX_ENTITIES) (ha : s.active i = true) :
    (updateParallel s).1.transforms (1 - s.frontBufferIndex) i = (stepTransform s i).1
    ∧ (s.physics i = ⟨0, 0⟩ →
        (updateParallel s).1.transforms (1 - s.frontBufferIndex) i
            = s.transforms s.frontBufferIndex i
        ∧ ∀ e ∈ (updateParallel s).2, e.a ≠ i) := by
  have htr : (updateParallel s).1.transforms (1 - s.frontBufferIndex) i
      = (stepTransform s i).1 := by
    simp [updateParallel, hi, ha]
  refine ⟨htr, fun hz => ⟨?_, ?_⟩⟩
  · rw [htr]
    unfold stepTransform
    rw [stepEntity_zero i _ _ hz]
  · intro e he hea
    obtain ⟨-, -, -, hv⟩ := mem_updateEvents (s := s) (e := e) he
    rw [hea, hz] at hv
    simp at hv

/-- Concrete scene for the C4 witness: one active entity with zero
velocity at position (3, 4). -/
def sceneC4 : Scene where
  frontBufferIndex := 0
  transforms := fun _ i => if i = 0 then ⟨3, 4⟩ else ⟨0, 0⟩
  physics := fun _ => ⟨0, 0⟩
  renders := fun _ => ⟨Char.ofNat 64⟩
  healths := fun _ => ⟨100⟩
  active := fun i => decide (i = 0)

/-- C4 witness: the zero-velocity active entity's back-buffer slot is an
exact copy of its front-buffer position after the step. -/
theorem physics_step_writes_all_active_witness :
    sceneC4.active 0 = true ∧ sceneC4.physics 0 = ⟨0, 0⟩ ∧
    (updateParallel sceneC4).1.transforms 1 0 = ⟨3, 4⟩ := by
  have h := physics_step_writes_all_active sceneC4 0 (by decide) (by decide)
  refine ⟨by decide, by decide, ?_⟩
  have h1 := (h.2 (by decide)).1
  simpa [sceneC4] using h1

/-! ### Helper lemmas about the entity-creation scan -/

lemma firstInactiveFrom_none_iff (active : Nat → Bool) :
    ∀ fuel i, firstInactiveFrom active i fuel = none ↔
      ∀ k, i ≤ k → k < i + fuel → active k = true := by
  intro fuel
  induction fuel with
  | zero =>
    intro i
    simp only [firstInactiveFrom]
    constructor
    · intro _ k h1 h2
      exact absurd h2 (by omega)
    · intro _
      trivial
  | succ n ih =>
    intro i
    simp only [firstInactiveFrom]
    by_cases hai : active i = true
    · rw [if_pos hai, ih (i + 1)]
      constructor
      · intro h k hk1 hk2
        by_cases hk : k = i
        · subst hk; exact hai
        · exact h k (by omega) (by omega)
      · intro h k hk1 hk2
        exact h k (by omega) (by omega)
    · rw [if_neg hai]
      constructor
      · intro h
        exact absurd h (by simp)
      · intro h
        exact absurd (h i le_rfl (by omega)) hai

lemma firstInactiveFrom_some (active : Nat → Bool) :
    ∀ fuel i r, firstInactiveFrom active i fuel = some r →
      i ≤ r ∧ r < i + fuel ∧ active r = false ∧
        ∀ k, i ≤ k → k < r → active k = true := by
  intro fuel
  induction fuel with
  | zero => intro i r h; exact absurd h (by simp [firstInactiveFrom])
  | succ n ih =>
    intro i r h
    simp only [firstInactiveFrom] at h
    by_cases hai : active i = true
    · rw [if_pos hai] at h
      obtain ⟨h1, h2, h3, h4⟩ := ih (i + 1) r h
      refine ⟨by omega, by omega, h3, ?_⟩
      intro k hk1 hk2
      by_cases hk : k = i
      · subst hk; exact hai
      · exact h4 k (by omega) hk2
    · rw [if_neg hai] at h
      obtain rfl := Option.some.inj h
      refine ⟨le_rfl, by omega, by simpa using hai, ?_⟩
      intro k hk1 hk2
      exact absurd hk2 (by omega)

/-- C7: `CreateEntity` scans the active flags in increasing id order; when
some slot below `MAX_ENTITIES` is inactive it returns the smallest inactive
id, marks exactly that id active and changes nothing else; when all
`MAX_ENTITIES` slots are active it returns the distinct `MAX_ENTITIES`
outcome with the scene unchanged. -/
theorem createEntity_spec (s : Scene) :
    ((∀ i, i < MAX_ENTITIES → s.active i = true) →
        createEntity s = (s, MAX_ENTITIES))
    ∧ (∀ j, j < MAX_ENTITIES → s.active j = false →
        (createEntity s).2 < MAX_ENTITIES
        ∧ s.active (createEntity s).2 = false
        ∧ (∀ k, k < (createEntity s).2 → s.active k = true)
        ∧ (createEntity s).2 ≤ j
        ∧ (createEntity s).1.active
            = (fun m => if m = (createEntity s).2 then true else s.active m)
        ∧ (createEntity s).1.transforms = s.transforms
        ∧ (createEntity s).1.physics = s.physics
        ∧ (createEntity s).1.renders = s.renders
        ∧ (createEntity s).1.healths = s.healths
        ∧ (createEntity s).1.frontBufferIndex = s.frontBufferIndex) := by
  constructor
  · intro hall
    have hnone : firstInactiveFrom s.active 0 MAX_ENTITIES = none := by
      rw [firstInactiveFrom_none_iff]
      intro k _ hk
      exact hall k (by omega)
    unfold createEntity
    rw [hnone]
  · intro j hj hja
    rcases hm : firstInactiveFrom s.active 0 MAX_ENTITIES with _ | r
    · rw [firstInactiveFrom_none_iff] at hm
      exact absurd (hm j (by omega) (by omega)) (by simp [hja])
    · obtain ⟨-, h2, h3, h4⟩ := firstInactiveFrom_some s.active MAX_ENTITIES 0 r hm
      have hcr : createEntity s
          = ({ s with active := fun m => if m = r then true else s.active m }, r) := by
        unfold createEntity
        rw [hm]
      have hrj : r ≤ j := by
        by_contra hlt
        push_neg at hlt
        exact absurd (h4 j (by omega) hlt) (by simp [hja])
      rw [hcr]
      exact ⟨by omega, h3, fun k hk => h4 k (by omega) hk, hrj,
        rfl, rfl, rfl, rfl, rfl, rfl⟩

/-- Concrete scene for the C7 witness: ids 0 and 1 active, the rest free. -/
def sceneC7 : Scene where
  frontBufferIndex := 0
  transforms := fun _ _ => ⟨0, 0⟩
  physics := fun _ => ⟨0, 0⟩
  renders := fun _ => ⟨Char.ofNat 0⟩
  healths := fun _ => ⟨100⟩
  active := fun i => decide (i < 2)

/-- Concrete scene for the C7 witness, with every slot active. -/
def sceneC7full : Scene where
  frontBufferIndex := 0
  transforms := fun _ _ => ⟨0, 0⟩
  physics := fun _ => ⟨0, 0⟩
  renders := fun _ => ⟨Char.ofNat 0⟩
  healths := fun _ => ⟨100⟩
  active := fun _ => true

/-- C7 witness: with ids 0 and 1 taken, creation returns an id that is at
most 2, inactive, and below capacity; with every slot taken it returns the
`MAX_ENTITIES` outcome and the scene unchanged. -/
theorem createEntity_spec_witness :
    (2 < MAX_ENTITIES ∧ sceneC7.active 2 = false)
    ∧ (createEntity sceneC7).2 < MAX_ENTITIES
    ∧ sceneC7.active (createEntity sceneC7).2 = false
    ∧ (createEntity sceneC7).2 ≤ 2
    ∧ createEntity sceneC7full = (sceneC7full, MAX_ENTITIES) := by
  have h := (createEntity_spec sceneC7).2 2 (by decide) (by decide)
  have hfull := (createEntity_spec sceneC7full).1 (fun i _ => rfl)
  exact ⟨⟨by decide, by decide⟩, h.1, h.2.1, h.2.2.2.1, hfull⟩

/-! ### Helper lemma for the event queue -/

lemma runOps_fifo (ops : List QueueOp) :
    ∀ q : List GameEvent,
      (runOps ops q).2 ++ (runOps ops q).1 = q ++ pushedOf ops := by
  induction ops with
  | nil =>
    intro q
    simp [runOps, pushedOf]
  | cons op rest ih =>
    intro q
    cases op with
    | push e =>
      simp only [runOps, pushedOf, pushQueue]
      rw [ih (q ++ [e])]
      simp
    | tryPop =>
      cases q with
      | nil =>
        simp only [runOps, pushedOf, tryPopQueue]
        exact ih []
      | cons x xs =>
        simp only [runOps, pushedOf, tryPopQueue]
        rw [List.cons_append, ih xs]
        simp

/-- C8: the event queue is strict FIFO — over any operation sequence the
successfully popped events followed by the remaining queue equal the
initial queue followed by the pushed events in push order (so each pop
removes the earliest pushed remaining event); `TryPop` on an empty queue
returns the empty outcome and leaves the queue unchanged, and on a
non-empty queue removes and returns the head. -/
theorem eventQueue_fifo :
    (∀ ops : List QueueOp, ∀ q : List GameEvent,
        (runOps ops q).2 ++ (runOps ops q).1 = q ++ pushedOf ops)
    ∧ tryPopQueue [] = (none, [])
    ∧ (∀ e : GameEvent, ∀ q : List GameEvent, tryPopQueue (e :: q) = (some e, q)) :=
  ⟨fun ops q => runOps_fifo ops q, rfl, fun _ _ => rfl⟩

/-- C10: every event pushed by a parallel physics step is a collision
against the sentinel `MAX_ENTITIES` (outside the valid id range), sourced
from an active entity with a valid id and nonzero velocity; the step pushes
at most two events per entity (at most one per axis: each axis correction
pushes at most one event). -/
theorem physics_step_events_characterization (s : Scene) :
    ((updateParallel s).2.all fun e =>
        decide (e.b = MAX_ENTITIES ∧ e.a < MAX_ENTITIES ∧ s.active e.a = true ∧
          ((s.physics e.a).vx ≠ 0 ∨ (s.physics e.a).vy ≠ 0))) = true
    ∧ (∀ i : Nat,
        ((updateParallel s).2.filter fun e => decide (e.a = i)).length ≤ 2)
    ∧ (∀ i : Nat, ∀ pos v : ℚ,
        (clampAxis i 0 79 pos v).2.2.length ≤ 1
        ∧ (clampAxis i 0 24 pos v).2.2.length ≤ 1) := by
  refine ⟨?_, ?_, ?_⟩
  · rw [List.all_eq_true]
    intro e he
    exact decide_eq_true (mem_updateEvents he)
  · intro i
    have h := updateEvents_filter s i
    rw [show (updateParallel s).2 = updateEvents s from rfl, h]
    split
    · exact stepEntity_events_len i _ _
    · simp
  · intro i pos v
    constructor
    · rw [clampAxis_eq i 0 79 pos v (by norm_num)]
      by_cases h : pos < 0 ∨ pos > 79 <;> simp [h]
    · rw [clampAxis_eq i 0 24 pos v (by norm_num)]
      by_cases h : pos < 0 ∨ pos > 24 <;> simp [h]

/-- Scene exhibiting C6's failure: entity 0 is active with the null glyph
(the "not rendered" sentinel documented at the `RenderComponent`
definition), entity 1 is active with the space glyph; all other slots are
inactive; both entities sit at (40, 12). -/
def sceneC6 : Scene where
  frontBufferIndex := 0
  transforms := fun _ _ => ⟨40, 12⟩
  physics := fun _ => ⟨0, 0⟩
  renders := fun i => if i = 0 then ⟨Char.ofNat 0⟩ else ⟨Char.ofNat 32⟩
  healths := fun _ => ⟨100⟩
  active := fun i => decide (i < 2)

/-- C6: `CollectParallel` filters glyphs against the SPACE character
instead of the null sentinel, so the snapshot emits a draw packet for the
active null-glyph entity 0 (the claim requires none) and emits no packet
for the active space-glyph entity 1, whose glyph is not the null sentinel
(the claim requires one). -/
theorem collectParallel_null_glyph_rendered :
    collectParallel sceneC6 = [⟨Char.ofNat 0, 40, 12⟩] := by decide
